import Mathlib

/-!
Verification development for the buy-cycle engine of `main.py`
(Algo-Trade-buyer).

The Python source is shallowly embedded: machine floats are modelled as
exact rationals (`ℚ`), Python string operations (`str.strip`, `str.upper`,
decimal rendering of integers) are modelled by executable functions on
`String`, worksheets are lists of rows of strings, and the effectful parts
of the program (account fetches, order submissions, sheet writes) are
modelled by explicit state passing plus an event trace.
-/

namespace AlgoTradeBuyer

/-! ## Python string primitives -/

/-- Model of Python `str.strip()`: drop whitespace from both ends. -/
def pyStrip (s : String) : String :=
  ⟨((s.data.dropWhile Char.isWhitespace).reverse.dropWhile Char.isWhitespace).reverse⟩

/-- Model of Python `str.upper()` (ASCII case mapping). -/
def pyUpper (s : String) : String :=
  ⟨s.data.map Char.toUpper⟩

/-- The character for the decimal digit `d` (expects `d < 10`). -/
def digitChar (d : ℕ) : Char := Char.ofNat (48 + d)

/-- Decimal digits of `n`, least significant first; `fuel` bounds the
recursion (any `fuel ≥ n` is enough). -/
def digitsRevFuel : ℕ → ℕ → List ℕ
  | 0, _ => []
  | f + 1, n => if n = 0 then [] else n % 10 :: digitsRevFuel f (n / 10)

/-- Model of Python decimal rendering of a nonnegative integer
(`f-string` formatting of `int`). -/
def natDecimal (n : ℕ) : String :=
  if n = 0 then "0" else ⟨((digitsRevFuel n n).reverse.map digitChar)⟩

/-- Numeric value of a digit character. -/
def charVal (c : Char) : ℕ := c.toNat - 48

/-- Value of a least-significant-first digit list. -/
def ofDigitsRev : List ℕ → ℕ
  | [] => 0
  | d :: ds => d + 10 * ofDigitsRev ds

/-- Decode a decimal character string back to a number (left inverse of
`natDecimal`, used to prove injectivity). -/
def decodeChars (cs : List Char) : ℕ :=
  ofDigitsRev ((cs.map charVal).reverse)

/-- Two-digit rendering of `n < 100`, as in the fractional part of
`f-string` `.2f` formatting. -/
def pad2 (n : ℕ) : String :=
  if n < 10 then "0" ++ natDecimal n else natDecimal n

/-- Render an amount of signed cents as a decimal string with exactly two
fractional digits. -/
def centsString (c : ℤ) : String :=
  (if c < 0 then "-" else "") ++ natDecimal (c.natAbs / 100) ++ "." ++ pad2 (c.natAbs % 100)

/-- Model of Python `f-string` formatting `x:.2f`: round to the nearest
cent and render with two fractional digits. -/
def fmt2 (q : ℚ) : String := centsString (round (q * 100))

/-- Model of Python `round(x, 2)`: the value rounded to the nearest cent. -/
def round2 (q : ℚ) : ℚ := (round (q * 100) : ℚ) / 100

/-! ## Sheet-layout constants (`main.py` lines 28–29) -/

/-- The constant `LOG_HEADERS`: the fixed 8-column audit schema. -/
def LOG_HEADERS : List String :=
  ["Timestamp", "Action", "Symbol", "NotionalUSD", "Qty", "OrderID", "Status", "Note"]

/-! ## `read_screener_tickers` (`main.py` lines 95–124) -/

/-- Column selection of `read_screener_tickers`: each header cell is
stripped, then the index of the cell equal to `"Ticker"` is taken,
falling back to column 0 when absent
(`header = [h.strip() for h in values[0]]; idx = header.index("Ticker")`). -/
def tickerIdx (header : List String) : ℕ :=
  match (header.map pyStrip).findIdx? (fun h => h = "Ticker") with
  | some i => i
  | none => 0

/-- The per-row extraction: `if idx < len(row): t = row[idx].strip().upper();
if t: tickers.append(t)`. -/
def rowTicker (idx : ℕ) (row : List String) : Option String :=
  match row.get? idx with
  | none => none
  | some cell =>
    let t := pyUpper (pyStrip cell)
    if t = "" then none else some t

/-- The seen-set deduplication loop of `read_screener_tickers`
(`seen`/`ordered` accumulation, first occurrence wins). -/
def dedupSeen (seen : List String) : List String → List String
  | [] => []
  | t :: ts => if t ∈ seen then dedupSeen seen ts else t :: dedupSeen (t :: seen) ts

/-- Function `read_screener_tickers`: header-based column selection, per-row strip /
upper-case / discard-empty, then order-preserving deduplication. -/
def read_screener_tickers (values : List (List String)) : List String :=
  match values with
  | [] => []
  | header :: rows =>
    let idx := tickerIdx header
    dedupSeen [] (rows.filterMap (rowTicker idx))

/-! ## `append_logs` (`main.py` lines 66–92) -/

/-- Forcing a record to exactly 8 fields: pad short records with `""`,
truncate long ones (`main.py` lines 74–79). -/
def pad8 (r : List String) : List String :=
  if r.length < 8 then r ++ List.replicate (8 - r.length) ""
  else if r.length > 8 then r.take 8
  else r

/-- Split a list into consecutive chunks of size `k`
(the `range(0, len(fixed), 100)` batching loop); `fuel` bounds the
recursion (any `fuel ≥ l.length` is enough when `k > 0`). -/
def chunksFuel (k : ℕ) : ℕ → List (List String) → List (List (List String))
  | 0, _ => []
  | f + 1, l => if l.isEmpty then [] else l.take k :: chunksFuel k f (l.drop k)

/-- Consecutive chunks of size `k` of `l`. -/
def chunks (k : ℕ) (l : List (List String)) : List (List (List String)) :=
  chunksFuel k l.length l

/-! ## Worksheet state and `ensure_log` (`main.py` lines 55–63) -/

/-- A worksheet: a list of rows of cells, plus whether its top row is
frozen (`ws.freeze(rows=1)`). -/
structure Sheet where
  rows : List (List String)
  frozen : Bool
deriving DecidableEq, Repr

/-- Trailing empty cells are not reported by a range read. -/
def trimTrailingEmpty (r : List String) : List String :=
  (r.reverse.dropWhile (fun c => c = "")).reverse

/-- Model of `ws.get_values("A1:H1")`: the first row restricted to the
first 8 cells, with trailing empty cells dropped; an empty result is
reported as an empty list of rows. -/
def getA1H1 (s : Sheet) : List (List String) :=
  match s.rows with
  | [] => []
  | r :: _ =>
    let t := trimTrailingEmpty (r.take 8)
    if t.isEmpty then [] else [t]

/-- Model of `ws.update("A1:H1", [LOG_HEADERS])`: overwrite cells A1..H1
of the first row, leaving any further cells of that row and all later
rows untouched (creating the row when the sheet is empty). -/
def writeHeader (s : Sheet) : Sheet :=
  { s with rows := match s.rows with
      | [] => [LOG_HEADERS]
      | r :: rest => (LOG_HEADERS ++ r.drop 8) :: rest }

/-- Function `ensure_log`: write the header row iff the A1:H1 read does not already
equal `LOG_HEADERS`, then attempt a best-effort freeze whose failure
(`freezeFails = true`) is swallowed.  Returns the updated sheet and
whether the header row was written. -/
def ensure_log (s : Sheet) (freezeFails : Bool) : Sheet × Bool :=
  let vals := getA1H1 s
  let s1 := if vals.head? = some LOG_HEADERS then s else writeHeader s
  let s2 := if freezeFails then s1 else { s1 with frozen := true }
  (s2, decide (¬ vals.head? = some LOG_HEADERS))

/-! ## The event trace of the external calls -/

/-- One observable external call of the cycle. -/
inductive Ev where
  /-- Call `api.get_account()` -/
  | getAccount : Ev
  /-- Call `api.submit_order(symbol, notional, client_order_id, extended_hours)` -/
  | submitOrder (symbol : String) (notional : ℚ) (clientOrderId : String) (extended : Bool) : Ev
  /-- Call `time.sleep(SLEEP_BETWEEN_ORDERS_SEC)` -/
  | sleepBetween : Ev
  /-- Call `ws.append_rows(chunk, ...)` -/
  | appendRows (chunk : List (List String)) : Ev
deriving DecidableEq, Repr

/-- Function `append_logs`: no-op on an empty record list; otherwise force every
record to 8 fields and append them, one `append_rows` call per chunk of
at most 100 rows, anchored to the header range. -/
def append_logs (s : Sheet) (rows : List (List String)) : Sheet × List Ev :=
  if rows.isEmpty then (s, [])
  else
    let fixed := rows.map pad8
    ({ s with rows := s.rows ++ fixed }, (chunks 100 fixed).map Ev.appendRows)

/-! ## `place_buy_notional` (`main.py` lines 133–148) -/

/-- The idempotency key, built as the string concatenation of a fixed
prefix tag, the symbol, a separator and the millisecond timestamp. -/
def clientOrderId (symbol : String) (msec : ℕ) : String :=
  "buy-" ++ symbol ++ "-" ++ natDecimal msec

/-- The brokerage order object, with the permissively-read attributes
(`getattr(order, …)` may find the field absent). -/
structure OrderObj where
  qty : Option String
  status : Option String
  id : Option String
deriving DecidableEq, Repr

/-- Outcome of `api.get_account()` (+ the `buying_power`-or-`cash`
resolution): either the resolved buying power or a raised exception,
recorded as (type name, message). -/
inductive AcctRes where
  | ok (buyingPower : ℚ) : AcctRes
  | exn (name msg : String) : AcctRes
deriving DecidableEq, Repr

/-- Outcome of `api.submit_order(…)`: an order object or a raised
exception. -/
inductive SubRes where
  | ok (order : OrderObj) : SubRes
  | exn (name msg : String) : SubRes
deriving DecidableEq, Repr

/-- The external world as seen by one loop iteration: the timestamp
string `now_iso_utc()` returns, the millisecond clock reading used for
the idempotency key, the account-fetch outcome and the submit outcome. -/
structure SymWorld where
  ts : String
  msec : ℕ
  acct : AcctRes
  sub : SubRes
deriving DecidableEq, Repr

/-- Function `place_buy_notional`: submit a market buy for `round(notional, 2)`
dollars under a fresh `client_order_id`; returns the submission outcome
and the corresponding trace event. -/
def place_buy_notional (symbol : String) (notional : ℚ) (extended : Bool)
    (msec : ℕ) (res : SubRes) : SubRes × Ev :=
  (res, Ev.submitOrder symbol (round2 notional) (clientOrderId symbol msec) extended)

/-! ## The per-symbol loop body and the cycle (`main.py` lines 172–203) -/

/-- One iteration of the buy loop: fetch the account, size the order
against `percent` of the fresh buying power, skip below the
`minNotional` floor, otherwise submit and sleep; any raised exception is
caught and turned into a `BUY-ERROR` record.  Returns the accumulated
log record and the trace of external calls made. -/
def processSymbol (percent minNotional : ℚ) (extended : Bool)
    (symbol : String) (w : SymWorld) : List String × List Ev :=
  match w.acct with
  | .exn n m =>
    ([w.ts, "BUY-ERROR", symbol, "", "", "", "ERROR", n ++ ": " ++ m], [Ev.getAccount])
  | .ok buyingPower =>
    let notional := buyingPower * (percent / 100)
    if notional < minNotional then
      let note := "Notional " ++ fmt2 notional ++ " < MIN_ORDER_NOTIONAL " ++ fmt2 minNotional
      ([w.ts, "BUY-SKIP", symbol, fmt2 notional, "", "", "SKIPPED", note], [Ev.getAccount])
    else
      match place_buy_notional symbol notional extended w.msec w.sub with
      | (.exn n m, ev) =>
        ([w.ts, "BUY-ERROR", symbol, "", "", "", "ERROR", n ++ ": " ++ m],
         [Ev.getAccount, ev])
      | (.ok order, ev) =>
        ([w.ts, "BUY", symbol, fmt2 notional, order.qty.getD "", order.id.getD "",
          order.status.getD "submitted", ""],
         [Ev.getAccount, ev, Ev.sleepBetween])

/-- The symbol loop: one record and one trace segment per symbol, each
iteration consuming the view that iteration has of the external world. -/
def runCycle (percent minNotional : ℚ) (extended : Bool) :
    List String → List SymWorld → List (List String) × List Ev
  | [], _ => ([], [])
  | _ :: _, [] => ([], [])
  | s :: ss, w :: ws =>
    let head := processSymbol percent minNotional extended s w
    let rest := runCycle percent minNotional extended ss ws
    (head.1 :: rest.1, head.2 ++ rest.2)

/-- Result of one invocation of `main` past the connection phase. -/
structure MainResult where
  trace : List Ev
  logSheet : Sheet
  /-- Whether `main` returned at the empty-screener early exit. -/
  exitedEarly : Bool
deriving DecidableEq, Repr

/-- The body of `main` after the clients are connected: anchor the log
schema, read the screener tickers, exit early when there are none,
otherwise run the cycle and write all accumulated records in one
batched `append_logs` call. -/
def mainRun (percent minNotional : ℚ) (extended : Bool)
    (screener : List (List String)) (logSheet : Sheet) (freezeFails : Bool)
    (ws : List SymWorld) : MainResult :=
  let anchored := (ensure_log logSheet freezeFails).1
  let symbols := read_screener_tickers screener
  if symbols.isEmpty then ⟨[], anchored, true⟩
  else
    let cycle := runCycle percent minNotional extended symbols ws
    let written := append_logs anchored cycle.1
    ⟨cycle.2 ++ written.2, written.1, false⟩

/-! ## Connection phase and process entry (`main.py` lines 39–44, 127–130, 210–216) -/

/-- The configuration environment `main` starts from: the Google
credentials JSON, the two Alpaca keys (absent or falsy modelled as
`none`), and whether the spreadsheet is reachable. -/
structure Env where
  googleCreds : Option String
  alpacaKey : Option String
  alpacaSecret : Option String
  sheetsReachable : Bool
deriving DecidableEq, Repr

/-- Function `main` including its connection phase: `get_google_client`
raises on a missing `GOOGLE_CREDS_JSON`, `make_alpaca` raises on missing
Alpaca keys, and opening the spreadsheet raises when the data source is
unreachable — each before any symbol is processed.  Exceptions are
modelled as `Except.error (type name, message)`. -/
def mainExcept (env : Env) (percent minNotional : ℚ) (extended : Bool)
    (screener : List (List String)) (logSheet : Sheet) (freezeFails : Bool)
    (ws : List SymWorld) : Except (String × String) MainResult :=
  if env.googleCreds = none then
    .error ("RuntimeError", "Missing GOOGLE_CREDS_JSON env var.")
  else if env.alpacaKey = none ∨ env.alpacaSecret = none then
    .error ("RuntimeError", "Missing ALPACA_API_KEY / ALPACA_SECRET_KEY.")
  else if ¬ env.sheetsReachable then
    .error ("APIError", "unable to open spreadsheet")
  else
    .ok (mainRun percent minNotional extended screener logSheet freezeFails ws)

/-- What one process run produces: the cycle result when `main` returned
normally, the process exit status, and the error surfaced on the
console by the top-level handler, if any. -/
structure RunOutcome where
  result : Option MainResult
  exitCode : ℕ
  surfaced : Option (String × String)
deriving DecidableEq, Repr

/-- The `__main__` wrapper: it calls `main()` inside a bare
`try/except Exception` whose handler prints the error and the traceback
and then falls through, so the interpreter always terminates with exit
status 0, whether or not `main` raised. -/
def entrypoint (env : Env) (percent minNotional : ℚ) (extended : Bool)
    (screener : List (List String)) (logSheet : Sheet) (freezeFails : Bool)
    (ws : List SymWorld) : RunOutcome :=
  match mainExcept env percent minNotional extended screener logSheet freezeFails ws with
  | .ok r => ⟨some r, 0, none⟩
  | .error e => ⟨none, 0, some e⟩

/-! ## Claim-side definitions (used only to compare against the code) -/

/-- Modelled from the claim wording of C4: the column whose header cell
equals `"Ticker"` by case-sensitive exact match, with no whitespace
normalization of the header, falling back to column 0. -/
def claimTickerIdx (header : List String) : ℕ :=
  match header.findIdx? (fun h => h = "Ticker") with
  | some i => i
  | none => 0

/-- Modelled from the claim wording of C4: the ticker pipeline with the
exact-match column selection of the claim; the per-row processing and the
deduplication are as in the code. -/
def claimTickerRead (values : List (List String)) : List String :=
  match values with
  | [] => []
  | header :: rows =>
    dedupSeen [] (rows.filterMap (rowTicker (claimTickerIdx header)))

/-- Order-preserving first-occurrence deduplication, written as the
spec phrases it (keep the head, drop its later duplicates, recurse). -/
def dedupKeepFirst : List String → List String
  | [] => []
  | t :: ts => t :: dedupKeepFirst (ts.filter (fun x => x ≠ t))
termination_by l => l.length
decreasing_by
  simp only [List.length_cons]
  exact Nat.lt_succ_of_le (List.length_filter_le _ _)

/-! ## Helper lemmas: decimal rendering -/

theorem ofDigitsRev_digitsRevFuel :
    ∀ f n, n ≤ f → ofDigitsRev (digitsRevFuel f n) = n := by
  intro f
  induction f with
  | zero =>
    intro n hn
    interval_cases n
    rfl
  | succ f ih =>
    intro n hn
    by_cases h0 : n = 0
    · subst h0; rfl
    · have hdiv : n / 10 ≤ f := by omega
      simp only [digitsRevFuel, h0, if_false, ofDigitsRev, ih _ hdiv]
      exact Nat.mod_add_div n 10

theorem digitsRevFuel_lt_ten :
    ∀ f n d, d ∈ digitsRevFuel f n → d < 10 := by
  intro f
  induction f with
  | zero => intro n d hd; simp [digitsRevFuel] at hd
  | succ f ih =>
    intro n d hd
    by_cases h0 : n = 0
    · subst h0; simp [digitsRevFuel] at hd
    · simp only [digitsRevFuel, h0, if_false, List.mem_cons] at hd
      rcases hd with h | h
      · subst h; exact Nat.mod_lt _ (by omega)
      · exact ih _ _ h

theorem charVal_digitChar {d : ℕ} (hd : d < 10) : charVal (digitChar d) = d := by
  interval_cases d <;> decide

theorem digitChar_ne_dash {d : ℕ} (hd : d < 10) : digitChar d ≠ ('-' : Char) := by
  interval_cases d <;> decide

theorem decodeChars_natDecimal (n : ℕ) : decodeChars (natDecimal n).data = n := by
  by_cases h0 : n = 0
  · subst h0; decide
  · have hdata : (natDecimal n).data = (digitsRevFuel n n).reverse.map digitChar := by
      simp [natDecimal, h0]
    rw [decodeChars, hdata, List.map_map]
    have hcongr : (digitsRevFuel n n).reverse.map (charVal ∘ digitChar)
        = (digitsRevFuel n n).reverse.map id := by
      apply List.map_congr_left
      intro d hd
      exact charVal_digitChar (digitsRevFuel_lt_ten n n d (List.mem_reverse.mp hd))
    rw [hcongr, List.map_id, List.reverse_reverse]
    exact ofDigitsRev_digitsRevFuel n n le_rfl

theorem natDecimal_injective : Function.Injective natDecimal := by
  intro a b hab
  have := congrArg (fun s => decodeChars s.data) hab
  simpa [decodeChars_natDecimal] using this

theorem dash_not_mem_natDecimal (n : ℕ) : ('-' : Char) ∉ (natDecimal n).data := by
  by_cases h0 : n = 0
  · subst h0; decide
  · simp only [natDecimal, h0, if_false]
    intro hmem
    rcases List.mem_map.mp (List.mem_reverse.mp
      (by simpa using hmem)) with ⟨d, hd, hchar⟩
    exact digitChar_ne_dash (digitsRevFuel_lt_ten n n d hd) hchar

/-! ## Helper lemmas: the idempotency key -/

theorem split_at_fresh_sep {c : Char} :
    ∀ (r₁ : List Char) (r₂ w₁ w₂ : List Char), c ∉ r₁ → c ∉ r₂ →
      r₁ ++ c :: w₁ = r₂ ++ c :: w₂ → r₁ = r₂ ∧ w₁ = w₂ := by
  intro r₁
  induction r₁ with
  | nil =>
    intro r₂ w₁ w₂ _ h₂ heq
    cases r₂ with
    | nil => simp_all
    | cons b r₂ =>
      simp only [List.nil_append, List.cons_append, List.cons.injEq] at heq
      exact absurd (heq.1 ▸ List.mem_cons_self b r₂) h₂
  | cons a r₁ ih =>
    intro r₂ w₁ w₂ h₁ h₂ heq
    cases r₂ with
    | nil =>
      simp only [List.cons_append, List.nil_append, List.cons.injEq] at heq
      exact absurd (heq.1 ▸ List.mem_cons_self a r₁) h₁
    | cons b r₂ =>
      simp only [List.cons_append, List.cons.injEq] at heq
      have hr := ih r₂ w₁ w₂ (fun h => h₁ (List.mem_cons_of_mem a h))
        (fun h => h₂ (List.mem_cons_of_mem b h)) heq.2
      exact ⟨by rw [heq.1, hr.1], hr.2⟩

theorem clientOrderId_inj (s₁ s₂ : String) (m₁ m₂ : ℕ)
    (h : clientOrderId s₁ m₁ = clientOrderId s₂ m₂) : s₁ = s₂ ∧ m₁ = m₂ := by
  have hdata := congrArg String.data h
  simp only [clientOrderId, String.data_append] at hdata
  have hcancel : s₁.data ++ ('-' :: (natDecimal m₁).data)
      = s₂.data ++ ('-' :: (natDecimal m₂).data) := by
    have : "buy-".data ++ (s₁.data ++ ('-' :: (natDecimal m₁).data))
        = "buy-".data ++ (s₂.data ++ ('-' :: (natDecimal m₂).data)) := by
      simpa using hdata
    exact List.append_cancel_left this
  have hrev := congrArg List.reverse hcancel
  simp only [List.reverse_append, List.reverse_cons, List.append_assoc,
    List.singleton_append] at hrev
  have hsplit := split_at_fresh_sep (natDecimal m₁).data.reverse
    (natDecimal m₂).data.reverse s₁.data.reverse s₂.data.reverse
    (fun hm => dash_not_mem_natDecimal m₁ (List.mem_reverse.mp hm))
    (fun hm => dash_not_mem_natDecimal m₂ (List.mem_reverse.mp hm)) hrev
  constructor
  · have hd : s₁.data = s₂.data := by
      have := congrArg List.reverse hsplit.2
      simpa using this
    exact congrArg String.mk hd
  · have hd : (natDecimal m₁).data = (natDecimal m₂).data := by
      have := congrArg List.reverse hsplit.1
      simpa using this
    exact natDecimal_injective (congrArg String.mk hd)

/-! ## Helper lemmas: records, chunks, the cycle -/

/-- Event classifiers used to count calls in a trace. -/
def isFetch : Ev → Bool
  | .getAccount => true
  | _ => false

def isSubmit : Ev → Bool
  | .submitOrder _ _ _ _ => true
  | _ => false

def isBrokerage (e : Ev) : Bool := isFetch e || isSubmit e

def isAppend : Ev → Bool
  | .appendRows _ => true
  | _ => false

theorem pad8_length (r : List String) : (pad8 r).length = 8 := by
  unfold pad8
  split_ifs with h1 h2
  · simp only [List.length_append, List.length_replicate]; omega
  · simp only [List.length_take]; omega
  · omega

theorem chunksFuel_flatten (k : ℕ) (hk : 0 < k) :
    ∀ f l, l.length ≤ f → (chunksFuel k f l).flatten = l := by
  intro f
  induction f with
  | zero =>
    intro l hl
    rw [List.length_eq_zero.mp (Nat.le_zero.mp hl)]
    rfl
  | succ f ih =>
    intro l hl
    by_cases he : l.isEmpty
    · rw [List.isEmpty_iff.mp he]; rfl
    · have hlen : (l.drop k).length ≤ f := by
        have : l.length ≠ 0 := by
          intro h; exact he (List.isEmpty_iff.mpr (List.length_eq_zero.mp h))
        simp only [List.length_drop]
        omega
      simp [chunksFuel, he, ih _ hlen]

theorem chunks_flatten (l : List (List String)) : (chunks 100 l).flatten = l :=
  chunksFuel_flatten 100 (by omega) l.length l le_rfl

theorem mem_chunks_length_eight (rows : List (List String)) :
    ∀ c ∈ chunks 100 (rows.map pad8), ∀ r ∈ c, r.length = 8 := by
  intro c hc r hr
  have : r ∈ (chunks 100 (rows.map pad8)).flatten :=
    List.mem_flatten.mpr ⟨c, hc, hr⟩
  rw [chunks_flatten] at this
  rcases List.mem_map.mp this with ⟨r₀, _, hr₀⟩
  exact hr₀ ▸ pad8_length r₀

theorem processSymbol_record_length (p m : ℚ) (e : Bool) (sym : String) (w : SymWorld) :
    (processSymbol p m e sym w).1.length = 8 := by
  obtain ⟨ts, ms, acct, sub⟩ := w
  cases acct with
  | exn n msg => rfl
  | ok bp =>
    by_cases h : bp * (p / 100) < m
    · simp [processSymbol, h]
    · cases sub with
      | ok o => simp [processSymbol, place_buy_notional, h]
      | exn n msg => simp [processSymbol, place_buy_notional, h]

theorem processSymbol_action (p m : ℚ) (e : Bool) (sym : String) (w : SymWorld) :
    (processSymbol p m e sym w).1.get? 1 = some "BUY"
    ∨ (processSymbol p m e sym w).1.get? 1 = some "BUY-SKIP"
    ∨ (processSymbol p m e sym w).1.get? 1 = some "BUY-ERROR" := by
  obtain ⟨ts, ms, acct, sub⟩ := w
  cases acct with
  | exn n msg => right; right; rfl
  | ok bp =>
    by_cases h : bp * (p / 100) < m
    · right; left; simp [processSymbol, h]
    · cases sub with
      | ok o => left; simp [processSymbol, place_buy_notional, h]
      | exn n msg => right; right; simp [processSymbol, place_buy_notional, h]

theorem processSymbol_fetch_head (p m : ℚ) (e : Bool) (sym : String) (w : SymWorld) :
    (processSymbol p m e sym w).2.head? = some Ev.getAccount := by
  obtain ⟨ts, ms, acct, sub⟩ := w
  cases acct with
  | exn n msg => rfl
  | ok bp =>
    by_cases h : bp * (p / 100) < m
    · simp [processSymbol, h]
    · cases sub with
      | ok o => simp [processSymbol, place_buy_notional, h]
      | exn n msg => simp [processSymbol, place_buy_notional, h]

theorem processSymbol_fetch_count (p m : ℚ) (e : Bool) (sym : String) (w : SymWorld) :
    (processSymbol p m e sym w).2.countP isFetch = 1 := by
  obtain ⟨ts, ms, acct, sub⟩ := w
  cases acct with
  | exn n msg => rfl
  | ok bp =>
    by_cases h : bp * (p / 100) < m
    · simp [processSymbol, h, List.countP_cons, isFetch]
    · cases sub with
      | ok o => simp [processSymbol, place_buy_notional, h, List.countP_cons, isFetch]
      | exn n msg => simp [processSymbol, place_buy_notional, h, List.countP_cons, isFetch]

theorem runCycle_decomp (p m : ℚ) (e : Bool) :
    ∀ (ss : List String) (ws : List SymWorld),
      (runCycle p m e ss ws).1
          = (ss.zip ws).map (fun q => (processSymbol p m e q.1 q.2).1)
      ∧ (runCycle p m e ss ws).2
          = (ss.zip ws).flatMap (fun q => (processSymbol p m e q.1 q.2).2) := by
  intro ss
  induction ss with
  | nil => intro ws; exact ⟨rfl, rfl⟩
  | cons s ss ih =>
    intro ws
    cases ws with
    | nil => exact ⟨rfl, rfl⟩
    | cons w ws =>
      have h := ih ws
      constructor
      · simp only [runCycle, List.zip_cons_cons, List.map_cons, h.1]
      · simp only [runCycle, List.zip_cons_cons, List.flatMap_cons, h.2]

theorem runCycle_fetch_total (p m : ℚ) (e : Bool) :
    ∀ (ss : List String) (ws : List SymWorld), ws.length = ss.length →
      (runCycle p m e ss ws).2.countP isFetch = ss.length := by
  intro ss
  induction ss with
  | nil => intro ws _; rfl
  | cons s ss ih =>
    intro ws hlen
    cases ws with
    | nil => simp at hlen
    | cons w ws =>
      simp only [List.length_cons, Nat.succ.injEq] at hlen
      simp only [runCycle, List.countP_append, ih ws hlen,
        processSymbol_fetch_count, List.length_cons]
      omega

/-! ## Helper lemmas: `ensure_log` -/

theorem getA1H1_ignores_frozen (rows : List (List String)) (b b' : Bool) :
    getA1H1 ⟨rows, b⟩ = getA1H1 ⟨rows, b'⟩ := rfl

theorem getA1H1_writeHeader (s : Sheet) : getA1H1 (writeHeader s) = [LOG_HEADERS] := by
  have htake8 : LOG_HEADERS.take 8 = LOG_HEADERS := by decide
  have htrim : trimTrailingEmpty LOG_HEADERS = LOG_HEADERS := by decide
  have hne : LOG_HEADERS.isEmpty = false := by decide
  rcases s with ⟨rows, b⟩
  cases rows with
  | nil => simp [writeHeader, getA1H1, htake8, htrim, hne]
  | cons r rest =>
    have hlen : LOG_HEADERS.length = 8 := by decide
    have : (LOG_HEADERS ++ r.drop 8).take 8 = LOG_HEADERS := by
      rw [show (8 : ℕ) = LOG_HEADERS.length from hlen.symm]
      exact List.take_left LOG_HEADERS (r.drop 8)
    simp [writeHeader, getA1H1, this, htrim, hne]

theorem ensure_log_rows (s : Sheet) (b : Bool) :
    (ensure_log s b).1.rows
      = if (getA1H1 s).head? = some LOG_HEADERS then s.rows else (writeHeader s).rows := by
  unfold ensure_log
  split_ifs with h1 h2 <;> simp_all

theorem ensure_log_getA1H1 (s : Sheet) (b : Bool) :
    getA1H1 (ensure_log s b).1 = if (getA1H1 s).head? = some LOG_HEADERS
      then getA1H1 s else [LOG_HEADERS] := by
  have hrows := ensure_log_rows s b
  have : getA1H1 (ensure_log s b).1 = getA1H1 ⟨(ensure_log s b).1.rows, s.frozen⟩ :=
    getA1H1_ignores_frozen _ _ _
  rw [this, hrows]
  split_ifs with h
  · rfl
  · have := getA1H1_writeHeader s
    calc getA1H1 ⟨(writeHeader s).rows, s.frozen⟩
        = getA1H1 (writeHeader s) := getA1H1_ignores_frozen _ _ _
      _ = [LOG_HEADERS] := this

/-! ## Helper lemmas: deduplication -/

theorem dedupKeepFirst_nil : dedupKeepFirst [] = [] := by
  rw [dedupKeepFirst.eq_def]

theorem dedupKeepFirst_cons (t : String) (ts : List String) :
    dedupKeepFirst (t :: ts) = t :: dedupKeepFirst (ts.filter (fun x => x ≠ t)) := by
  rw [dedupKeepFirst.eq_def]

theorem dedupSeen_eq_dedupKeepFirst :
    ∀ (l seen : List String),
      dedupSeen seen l = dedupKeepFirst (l.filter (fun t => decide (t ∉ seen))) := by
  intro l
  induction l with
  | nil => intro seen; simp [dedupSeen, dedupKeepFirst_nil]
  | cons t ts ih =>
    intro seen
    by_cases ht : t ∈ seen
    · rw [dedupSeen, if_pos ht,
        @List.filter_cons_of_neg _ (fun x => decide (x ∉ seen)) t ts (by simp [ht])]
      exact ih seen
    · rw [dedupSeen, if_neg ht,
        @List.filter_cons_of_pos _ (fun x => decide (x ∉ seen)) t ts (by simp [ht]),
        dedupKeepFirst_cons]
      congr 1
      rw [ih (t :: seen), List.filter_filter]
      apply congrArg
      apply List.filter_congr
      intro x _
      by_cases hx1 : x = t <;> by_cases hx2 : x ∈ seen <;>
        simp [hx1, hx2, List.mem_cons]

theorem dedupSeen_nil_eq (l : List String) : dedupSeen [] l = dedupKeepFirst l := by
  rw [dedupSeen_eq_dedupKeepFirst l []]
  congr 1
  apply List.filter_eq_self.mpr
  intro a _
  simp

/-! ## Claim theorems -/

/-- C5: every row actually written by `append_logs` has exactly 8 fields:
records shorter than 8 fields are padded with empty strings, records
longer than 8 are truncated, and what reaches the sheet (in chunks of at
most 100 rows) is exactly the padded records, so no appended row violates
the 8-column schema; an empty record list writes nothing. -/
theorem C5_append_rows_have_eight_fields (s : Sheet) (rows : List (List String)) :
    (∀ r : List String, (pad8 r).length = 8
        ∧ (r.length < 8 → pad8 r = r ++ List.replicate (8 - r.length) "")
        ∧ (r.length > 8 → pad8 r = r.take 8))
    ∧ (rows.isEmpty = false →
        (append_logs s rows).1.rows = s.rows ++ rows.map pad8
        ∧ (append_logs s rows).2 = (chunks 100 (rows.map pad8)).map Ev.appendRows
        ∧ (chunks 100 (rows.map pad8)).flatten = rows.map pad8
        ∧ ∀ c ∈ chunks 100 (rows.map pad8), ∀ r ∈ c, r.length = 8)
    ∧ (∀ r ∈ (append_logs s rows).1.rows.drop s.rows.length, r.length = 8)
    ∧ (rows.isEmpty = true → append_logs s rows = (s, [])) := by
  refine ⟨?_, ?_, ?_, ?_⟩
  · intro r
    refine ⟨pad8_length r, fun h => ?_, fun h => ?_⟩
    · unfold pad8; rw [if_pos h]
    · unfold pad8; rw [if_neg (by omega), if_pos h]
  · intro hne
    unfold append_logs
    rw [hne]
    exact ⟨rfl, rfl, chunks_flatten _, mem_chunks_length_eight rows⟩
  · intro r hr
    by_cases he : rows.isEmpty
    · simp [append_logs, he, List.drop_length] at hr
    · have he' : rows.isEmpty = false := Bool.eq_false_iff.mpr he
      simp only [append_logs, he', Bool.false_eq_true, if_false,
        List.drop_left] at hr
      rcases List.mem_map.mp hr with ⟨r₀, _, hr₀⟩
      exact hr₀ ▸ pad8_length r₀
  · intro he
    unfold append_logs
    rw [he]
    rfl

/-- C5 witness: appending one short record to an empty sheet writes the
padded record. -/
theorem C5_witness :
    (append_logs ⟨[], false⟩ [["a"]]).1.rows
      = [] ++ ([["a"]] : List (List String)).map pad8 :=
  ((C5_append_rows_have_eight_fields ⟨[], false⟩ [["a"]]).2.1 rfl).1

/-- C6: when the ticker source yields no symbols, the orchestrator exits
immediately after schema anchoring: the trace is empty, so zero brokerage
calls (account fetches or order submissions) and zero log-append writes
occur, and the log sheet is left exactly as `ensure_log` left it. -/
theorem C6_empty_screener_no_calls (p m : ℚ) (e : Bool)
    (screener : List (List String)) (logSheet : Sheet) (ff : Bool)
    (ws : List SymWorld) (h : read_screener_tickers screener = []) :
    mainRun p m e screener logSheet ff ws
        = ⟨[], (ensure_log logSheet ff).1, true⟩
    ∧ (mainRun p m e screener logSheet ff ws).trace.countP isBrokerage = 0
    ∧ (mainRun p m e screener logSheet ff ws).trace.countP isAppend = 0 := by
  have h1 : mainRun p m e screener logSheet ff ws
      = ⟨[], (ensure_log logSheet ff).1, true⟩ := by
    unfold mainRun
    rw [h]
    rfl
  exact ⟨h1, by simp [h1], by simp [h1]⟩

/-- C6 witness: an empty screener worksheet gives the early exit with an
empty trace. -/
theorem C6_witness :
    read_screener_tickers ([] : List (List String)) = []
    ∧ (mainRun 5 1 false [] ⟨[], false⟩ false []
          = ⟨[], (ensure_log ⟨[], false⟩ false).1, true⟩
      ∧ (mainRun 5 1 false [] ⟨[], false⟩ false []).trace.countP isBrokerage = 0
      ∧ (mainRun 5 1 false [] ⟨[], false⟩ false []).trace.countP isAppend = 0) :=
  ⟨rfl, C6_empty_screener_no_calls 5 1 false [] ⟨[], false⟩ false [] rfl⟩

/-- C7: every submission builds its `client_order_id` from the symbol and
the millisecond timestamp, and two submissions collide only when both the
symbol and the millisecond timestamp coincide: distinct symbols or
distinct timestamps give distinct idempotency keys. -/
theorem C7_fresh_client_order_id (s₁ s₂ : String) (m₁ m₂ : ℕ) (n : ℚ)
    (e : Bool) (res : SubRes) (h : s₁ ≠ s₂ ∨ m₁ ≠ m₂) :
    (place_buy_notional s₁ n e m₁ res).2
        = Ev.submitOrder s₁ (round2 n) (clientOrderId s₁ m₁) e
    ∧ clientOrderId s₁ m₁ ≠ clientOrderId s₂ m₂ := by
  refine ⟨rfl, fun heq => ?_⟩
  rcases clientOrderId_inj s₁ s₂ m₁ m₂ heq with ⟨hs, hm⟩
  rcases h with h | h
  · exact h hs
  · exact h hm

/-- C7 witness: same symbol, timestamps 0 and 1 millisecond. -/
theorem C7_witness :
    (("AAPL" : String) ≠ "AAPL" ∨ (0 : ℕ) ≠ 1)
    ∧ ((place_buy_notional "AAPL" 5 false 0 (.ok ⟨none, none, none⟩)).2
          = Ev.submitOrder "AAPL" (round2 5) (clientOrderId "AAPL" 0) false
      ∧ clientOrderId "AAPL" 0 ≠ clientOrderId "AAPL" 1) :=
  ⟨Or.inr (by decide),
   C7_fresh_client_order_id "AAPL" "AAPL" 0 1 5 false (.ok ⟨none, none, none⟩)
     (Or.inr (by decide))⟩

/-- Helper for C8: a sheet whose first row is exactly the header reads
back `[LOG_HEADERS]` on the A1:H1 range. -/
theorem getA1H1_of_head {s : Sheet} (h : s.rows.head? = some LOG_HEADERS) :
    getA1H1 s = [LOG_HEADERS] := by
  rcases s with ⟨rows, b⟩
  cases rows with
  | nil => simp at h
  | cons r rest =>
    simp only [List.head?_cons, Option.some.injEq] at h
    subst h
    have htake8 : LOG_HEADERS.take 8 = LOG_HEADERS := by decide
    have htrim : trimTrailingEmpty LOG_HEADERS = LOG_HEADERS := by decide
    have hne : LOG_HEADERS.isEmpty = false := by decide
    simp [getA1H1, htake8, htrim, hne]

/-- C8: `ensure_log` is idempotent — when the first row already equals the
exact 8-column header no header write happens, otherwise exactly the
single header row is overwritten; a second call never writes and leaves
the rows unchanged, and a failing best-effort freeze is swallowed (the
resulting rows do not depend on whether the freeze fails). -/
theorem C8_ensure_log_idempotent (s : Sheet) (b b' : Bool) :
    (s.rows.head? = some LOG_HEADERS →
        (ensure_log s b).1.rows = s.rows ∧ (ensure_log s b).2 = false)
    ∧ (ensure_log (ensure_log s b).1 b').1.rows = (ensure_log s b).1.rows
    ∧ (ensure_log (ensure_log s b).1 b').2 = false
    ∧ (ensure_log s b).1.rows.drop 1 = s.rows.drop 1
    ∧ (ensure_log s true).1.rows = (ensure_log s false).1.rows := by
  have hsnd : ∀ (t : Sheet) (c : Bool), (ensure_log t c).2
      = decide (¬ (getA1H1 t).head? = some LOG_HEADERS) := by
    intro t c; rfl
  have hhead2 : (getA1H1 (ensure_log s b).1).head? = some LOG_HEADERS := by
    rw [ensure_log_getA1H1]
    split_ifs with h
    · exact h
    · rfl
  refine ⟨?_, ?_, ?_, ?_, ?_⟩
  · intro h
    have hfirst := getA1H1_of_head h
    constructor
    · rw [ensure_log_rows, if_pos (by rw [hfirst]; rfl)]
    · rw [hsnd, decide_eq_false_iff_not, not_not, hfirst]
      rfl
  · rw [ensure_log_rows (ensure_log s b).1 b', if_pos hhead2]
  · rw [hsnd, decide_eq_false_iff_not, not_not]
    exact hhead2
  · rw [ensure_log_rows]
    split_ifs with h
    · rfl
    · rcases s with ⟨rows, c⟩
      cases rows with
      | nil => rfl
      | cons r rest => rfl
  · rw [ensure_log_rows, ensure_log_rows]

/-- C8 witness: a sheet already carrying the header row. -/
theorem C8_witness :
    ((⟨[LOG_HEADERS], false⟩ : Sheet).rows.head? = some LOG_HEADERS →
        (ensure_log ⟨[LOG_HEADERS], false⟩ false).1.rows
            = (⟨[LOG_HEADERS], false⟩ : Sheet).rows
        ∧ (ensure_log ⟨[LOG_HEADERS], false⟩ false).2 = false)
    ∧ (ensure_log (ensure_log ⟨[LOG_HEADERS], false⟩ false).1 true).1.rows
        = (ensure_log ⟨[LOG_HEADERS], false⟩ false).1.rows
    ∧ (ensure_log (ensure_log ⟨[LOG_HEADERS], false⟩ false).1 true).2 = false
    ∧ (ensure_log ⟨[LOG_HEADERS], false⟩ false).1.rows.drop 1
        = (⟨[LOG_HEADERS], false⟩ : Sheet).rows.drop 1
    ∧ (ensure_log ⟨[LOG_HEADERS], false⟩ true).1.rows
        = (ensure_log ⟨[LOG_HEADERS], false⟩ false).1.rows :=
  C8_ensure_log_idempotent ⟨[LOG_HEADERS], false⟩ false true

/-- C10 (implicit): a data row too short to contain the selected ticker
column contributes nothing — the guarded access skips it, so the ticker
read never fails on ragged rows and is unchanged by their removal. -/
theorem C10_short_row_skipped (header : List String)
    (rows₁ rows₂ : List (List String)) (row : List String)
    (h : row.length ≤ tickerIdx header) :
    read_screener_tickers (header :: (rows₁ ++ row :: rows₂))
      = read_screener_tickers (header :: (rows₁ ++ rows₂)) := by
  have hnone : rowTicker (tickerIdx header) row = none := by
    unfold rowTicker
    rw [List.get?_eq_none.mpr h]
  simp [read_screener_tickers, List.filterMap_append, List.filterMap_cons, hnone]

/-- C10 witness: an empty data row between two ticker rows. -/
theorem C10_witness :
    ([] : List String).length ≤ tickerIdx ["Ticker"]
    ∧ read_screener_tickers (["Ticker"] :: ([["AAPL"]] ++ [] :: [["MSFT"]]))
        = read_screener_tickers (["Ticker"] :: ([["AAPL"]] ++ [["MSFT"]])) :=
  ⟨by decide, C10_short_row_skipped ["Ticker"] [["AAPL"]] [["MSFT"]] [] (by decide)⟩

/-- C4 counterexample: the code matches a header cell `"Ticker "` (with
trailing whitespace, stripped before comparison) and so selects column 1,
while the case-sensitive exact match stated by the claim would fall back
to column 0;
on this worksheet the two pipelines return different ticker lists. -/
theorem C4_counterexample :
    read_screener_tickers [["x", "Ticker "], ["foo", "aapl"]] = ["AAPL"]
    ∧ claimTickerRead [["x", "Ticker "], ["foo", "aapl"]] = ["FOO"]
    ∧ read_screener_tickers [["x", "Ticker "], ["foo", "aapl"]]
        ≠ claimTickerRead [["x", "Ticker "], ["foo", "aapl"]] := by
  refine ⟨by decide, by decide, by decide⟩

/-- C4 (amended): the ticker column is the one whose header cell, after
trimming surrounding whitespace, equals `"Ticker"` case-sensitively
(fallback column 0); each data row is trimmed, upper-cased, empty values
are discarded, duplicates are removed preserving first-seen order; no
rows at all yields the empty sequence; and
`["AAPL", "msft", "AAPL "]` yields `["AAPL", "MSFT"]`. -/
theorem C4_ticker_pipeline (values : List (List String)) :
    read_screener_tickers values
        = (match values with
           | [] => []
           | header :: rows =>
             dedupKeepFirst (rows.filterMap (rowTicker (tickerIdx header))))
    ∧ read_screener_tickers ([] : List (List String)) = []
    ∧ read_screener_tickers [["Ticker"], ["AAPL"], ["msft"], ["AAPL "]]
        = ["AAPL", "MSFT"] := by
  refine ⟨?_, rfl, by decide⟩
  cases values with
  | nil => rfl
  | cons header rows =>
    simpa [read_screener_tickers] using
      dedupSeen_nil_eq (rows.filterMap (rowTicker (tickerIdx header)))

/-- C2: with one world response per symbol, the cycle produces exactly one
8-field record per symbol in processing order, each action field is
`BUY`, `BUY-SKIP` or `BUY-ERROR`, an exception while fetching or
submitting becomes a `BUY-ERROR` record carrying the error type and
message in its Note field, and a failure of symbol 2 of 3 still yields
the three records `BUY`, `BUY-ERROR`, `BUY`. -/
theorem C2_fault_isolation (p m : ℚ) (e : Bool) (symbols : List String)
    (ws : List SymWorld) (hlen : ws.length = symbols.length) :
    (runCycle p m e symbols ws).1.length = symbols.length
    ∧ (runCycle p m e symbols ws).1
        = (symbols.zip ws).map (fun q => (processSymbol p m e q.1 q.2).1)
    ∧ (∀ r ∈ (runCycle p m e symbols ws).1, r.length = 8)
    ∧ (∀ r ∈ (runCycle p m e symbols ws).1,
        r.get? 1 = some "BUY" ∨ r.get? 1 = some "BUY-SKIP"
        ∨ r.get? 1 = some "BUY-ERROR")
    ∧ (∀ (sym : String) (w : SymWorld) (n msg : String), w.acct = .exn n msg →
        (processSymbol p m e sym w).1
          = [w.ts, "BUY-ERROR", sym, "", "", "", "ERROR", n ++ ": " ++ msg])
    ∧ (∀ (sym : String) (w : SymWorld) (n msg : String) (bp : ℚ),
        w.acct = .ok bp → w.sub = .exn n msg → ¬ bp * (p / 100) < m →
        (processSymbol p m e sym w).1
          = [w.ts, "BUY-ERROR", sym, "", "", "", "ERROR", n ++ ": " ++ msg])
    ∧ (runCycle 5 1 false ["A", "B", "C"]
          [⟨"t1", 0, .ok 100, .ok ⟨none, none, none⟩⟩,
           ⟨"t2", 1, .ok 100, .exn "APIError" "boom"⟩,
           ⟨"t3", 2, .ok 100, .ok ⟨none, none, none⟩⟩]).1.map (fun r => r.get? 1)
        = [some "BUY", some "BUY-ERROR", some "BUY"] := by
  have hdec := runCycle_decomp p m e symbols ws
  refine ⟨?_, hdec.1, ?_, ?_, ?_, ?_, ?_⟩
  · rw [hdec.1, List.length_map, List.length_zip, hlen, min_self]
  · intro r hr
    rw [hdec.1] at hr
    rcases List.mem_map.mp hr with ⟨q, _, hq⟩
    exact hq ▸ processSymbol_record_length p m e q.1 q.2
  · intro r hr
    rw [hdec.1] at hr
    rcases List.mem_map.mp hr with ⟨q, _, hq⟩
    exact hq ▸ processSymbol_action p m e q.1 q.2
  · intro sym w n msg hacct
    obtain ⟨ts, ms, acct, sub⟩ := w
    cases hacct
    rfl
  · intro sym w n msg bp hacct hsub hlt
    obtain ⟨ts, ms, acct, sub⟩ := w
    cases hacct
    cases hsub
    simp [processSymbol, place_buy_notional, hlt]
  · have h1 : ¬ (100 : ℚ) * (5 / 100) < 1 := by norm_num
    simp [runCycle, processSymbol, place_buy_notional, h1]

/-- C2 witness: a single symbol with a matching single world. -/
theorem C2_witness :
    ([⟨"t1", 0, AcctRes.ok 100, SubRes.ok ⟨none, none, none⟩⟩] :
        List SymWorld).length = (["A"] : List String).length
    ∧ ((runCycle 5 1 false ["A"]
          [⟨"t1", 0, .ok 100, .ok ⟨none, none, none⟩⟩]).1.length
        = (["A"] : List String).length) :=
  ⟨rfl, (C2_fault_isolation 5 1 false ["A"]
      [⟨"t1", 0, .ok 100, .ok ⟨none, none, none⟩⟩] rfl).1⟩

/-- C3: the trace of the cycle is the concatenation of per-symbol segments;
every segment begins with its own account fetch (the fetch precedes the
sizing decision and any submission of that iteration), contains exactly
one fetch, and with one world per symbol the whole trace contains exactly
one fetch per symbol — no snapshot is reused across symbols. -/
theorem C3_fresh_snapshot_per_symbol (p m : ℚ) (e : Bool)
    (symbols : List String) (ws : List SymWorld)
    (hlen : ws.length = symbols.length) :
    (runCycle p m e symbols ws).2
        = (symbols.zip ws).flatMap (fun q => (processSymbol p m e q.1 q.2).2)
    ∧ (∀ (sym : String) (w : SymWorld),
        (processSymbol p m e sym w).2.head? = some Ev.getAccount)
    ∧ (∀ (sym : String) (w : SymWorld),
        (processSymbol p m e sym w).2.countP isFetch = 1)
    ∧ (runCycle p m e symbols ws).2.countP isFetch = symbols.length := by
  exact ⟨(runCycle_decomp p m e symbols ws).2,
    fun sym w => processSymbol_fetch_head p m e sym w,
    fun sym w => processSymbol_fetch_count p m e sym w,
    runCycle_fetch_total p m e symbols ws hlen⟩

/-- C3 witness: two symbols, two worlds, two fetches. -/
theorem C3_witness :
    ([⟨"t1", 0, AcctRes.ok 100, SubRes.ok ⟨none, none, none⟩⟩,
      ⟨"t2", 1, AcctRes.exn "APIError" "down", SubRes.exn "APIError" "down"⟩] :
        List SymWorld).length = (["A", "B"] : List String).length
    ∧ ((runCycle 5 1 false ["A", "B"]
          [⟨"t1", 0, .ok 100, .ok ⟨none, none, none⟩⟩,
           ⟨"t2", 1, .exn "APIError" "down", .exn "APIError" "down"⟩]).2.countP
          isFetch = (["A", "B"] : List String).length) :=
  ⟨rfl, (C3_fresh_snapshot_per_symbol 5 1 false ["A", "B"]
      [⟨"t1", 0, .ok 100, .ok ⟨none, none, none⟩⟩,
       ⟨"t2", 1, .exn "APIError" "down", .exn "APIError" "down"⟩] rfl).2.2.2⟩

/-- C1: sizing computes `notional = buying_power * (percent / 100)`; below
the minimum the decision is a skip whose `BUY-SKIP` record renders the
notional to two decimals and whose Note embeds both the rendered notional
and the rendered minimum; otherwise the buy proceeds and the submitted
order carries that notional rounded to two decimals.  Buying power 1000
with percent 5 sizes to 50 (rendered `"50.00"`), and percent 0.05 with
minimum 1 skips because 0.50 < 1.00. -/
theorem C1_sizing_decision (p m : ℚ) (e : Bool) (sym ts : String) (ms : ℕ)
    (bp : ℚ) (sub : SubRes) :
    (bp * (p / 100) < m →
        (processSymbol p m e sym ⟨ts, ms, .ok bp, sub⟩).1
            = [ts, "BUY-SKIP", sym, fmt2 (bp * (p / 100)), "", "", "SKIPPED",
               "Notional " ++ fmt2 (bp * (p / 100))
                 ++ " < MIN_ORDER_NOTIONAL " ++ fmt2 m]
        ∧ (∃ a b, "Notional " ++ fmt2 (bp * (p / 100))
              ++ " < MIN_ORDER_NOTIONAL " ++ fmt2 m
              = a ++ fmt2 (bp * (p / 100)) ++ b)
        ∧ (∃ a b, "Notional " ++ fmt2 (bp * (p / 100))
              ++ " < MIN_ORDER_NOTIONAL " ++ fmt2 m
              = a ++ fmt2 m ++ b)
        ∧ (processSymbol p m e sym ⟨ts, ms, .ok bp, sub⟩).2 = [Ev.getAccount])
    ∧ (¬ bp * (p / 100) < m →
        Ev.submitOrder sym (round2 (bp * (p / 100))) (clientOrderId sym ms) e
            ∈ (processSymbol p m e sym ⟨ts, ms, .ok bp, sub⟩).2)
    ∧ (1000 * ((5 : ℚ) / 100) = 50 ∧ fmt2 (1000 * ((5 : ℚ) / 100)) = "50.00")
    ∧ ((1000 : ℚ) * ((0.05 : ℚ) / 100) < 1
        ∧ (processSymbol 0.05 1 false sym ⟨ts, ms, .ok 1000, sub⟩).1.get? 1
            = some "BUY-SKIP"
        ∧ (processSymbol 0.05 1 false sym ⟨ts, ms, .ok 1000, sub⟩).1.get? 3
            = some "0.50") := by
  have hex : (1000 : ℚ) * ((0.05 : ℚ) / 100) < 1 := by norm_num
  refine ⟨?_, ?_, ⟨by norm_num, ?_⟩, hex, ?_, ?_⟩
  · intro h
    refine ⟨by simp [processSymbol, h], ?_, ?_, by simp [processSymbol, h]⟩
    · exact ⟨"Notional ", " < MIN_ORDER_NOTIONAL " ++ fmt2 m, by
        simp [String.append_assoc]⟩
    · exact ⟨"Notional " ++ fmt2 (bp * (p / 100)) ++ " < MIN_ORDER_NOTIONAL ", "", by
        simp [String.append_assoc, String.append_empty]⟩
  · intro h
    cases sub with
    | ok o => simp [processSymbol, place_buy_notional, h]
    | exn n msg => simp [processSymbol, place_buy_notional, h]
  · have hr : round ((1000 * ((5 : ℚ) / 100)) * 100) = (5000 : ℤ) := by
      norm_num [round_eq]
    simp only [fmt2, hr]
    decide
  · simp [processSymbol, hex]
  · have hr : round ((1000 * ((0.05 : ℚ) / 100)) * 100) = (50 : ℤ) := by
      norm_num [round_eq]
    have h50 : centsString 50 = "0.50" := by decide
    simp [processSymbol, hex, fmt2, hr, h50]

/-- C1 witness: buying power 1000, percent 5, minimum 1 — the buy
proceeds, so the skip hypothesis is discharged in its contrapositive
branch and the proceed hypothesis concretely. -/
theorem C1_witness :
    ¬ (1000 : ℚ) * ((5 : ℚ) / 100) < 1
    ∧ Ev.submitOrder "AAPL" (round2 ((1000 : ℚ) * ((5 : ℚ) / 100)))
        (clientOrderId "AAPL" 7) false
        ∈ (processSymbol 5 1 false "AAPL"
            ⟨"t", 7, .ok 1000, .ok ⟨none, none, none⟩⟩).2 :=
  ⟨by norm_num,
   (C1_sizing_decision 5 1 false "AAPL" "t" 7 1000
      (.ok ⟨none, none, none⟩)).2.1 (by norm_num)⟩

/-- C9 counterexample: with `GOOGLE_CREDS_JSON` missing the run aborts
before any symbol — but the top-level handler catches the exception,
surfaces it, and the process terminates with exit status 0, refuting the
claimed "exits non-zero". -/
theorem C9_counterexample :
    (entrypoint ⟨none, some "k", some "s", true⟩ 5 1 false [] ⟨[], false⟩
        false []).exitCode = 0
    ∧ (entrypoint ⟨none, some "k", some "s", true⟩ 5 1 false [] ⟨[], false⟩
        false []).surfaced
        = some ("RuntimeError", "Missing GOOGLE_CREDS_JSON env var.")
    ∧ ¬ ((entrypoint ⟨none, some "k", some "s", true⟩ 5 1 false [] ⟨[], false⟩
        false []).exitCode ≠ 0) := by
  refine ⟨rfl, rfl, fun h => h rfl⟩

/-- C9 (amended): missing credentials or an unreachable data source abort
the run before any symbol is processed — no cycle result exists, so no
account or order call is made and no log row is written — and the error
is surfaced to the operator, but the process exits with status 0 because
the top-level handler swallows the exception after printing it. -/
theorem C9_precycle_failure (env : Env) (p m : ℚ) (e : Bool)
    (screener : List (List String)) (logSheet : Sheet) (ff : Bool)
    (ws : List SymWorld)
    (h : env.googleCreds = none ∨ env.alpacaKey = none
        ∨ env.alpacaSecret = none ∨ env.sheetsReachable = false) :
    (entrypoint env p m e screener logSheet ff ws).result = none
    ∧ (entrypoint env p m e screener logSheet ff ws).exitCode = 0
    ∧ (entrypoint env p m e screener logSheet ff ws).surfaced.isSome = true := by
  have herr : ∀ err, mainExcept env p m e screener logSheet ff ws
      = Except.error err →
      (entrypoint env p m e screener logSheet ff ws).result = none
      ∧ (entrypoint env p m e screener logSheet ff ws).exitCode = 0
      ∧ (entrypoint env p m e screener logSheet ff ws).surfaced.isSome = true := by
    intro err hm
    unfold entrypoint
    rw [hm]
    exact ⟨rfl, rfl, rfl⟩
  by_cases h1 : env.googleCreds = none
  · exact herr _ (by unfold mainExcept; rw [if_pos h1])
  · by_cases h2 : env.alpacaKey = none ∨ env.alpacaSecret = none
    · exact herr _ (by unfold mainExcept; rw [if_neg h1, if_pos h2])
    · by_cases h3 : env.sheetsReachable
      · rcases h with h | h | h | h
        · exact absurd h h1
        · exact absurd (Or.inl h) h2
        · exact absurd (Or.inr h) h2
        · rw [h] at h3; exact absurd h3 (by simp)
      · exact herr _ (by unfold mainExcept; rw [if_neg h1, if_neg h2, if_pos h3])

/-- C9 witness: missing Google credentials. -/
theorem C9_witness :
    ((⟨none, some "k", some "s", true⟩ : Env).googleCreds = none
      ∨ (⟨none, some "k", some "s", true⟩ : Env).alpacaKey = none
      ∨ (⟨none, some "k", some "s", true⟩ : Env).alpacaSecret = none
      ∨ (⟨none, some "k", some "s", true⟩ : Env).sheetsReachable = false)
    ∧ ((entrypoint ⟨none, some "k", some "s", true⟩ 5 1 false [] ⟨[], false⟩
          false []).result = none
      ∧ (entrypoint ⟨none, some "k", some "s", true⟩ 5 1 false [] ⟨[], false⟩
          false []).exitCode = 0
      ∧ (entrypoint ⟨none, some "k", some "s", true⟩ 5 1 false [] ⟨[], false⟩
          false []).surfaced.isSome = true) :=
  ⟨Or.inl rfl,
   C9_precycle_failure ⟨none, some "k", some "s", true⟩ 5 1 false [] ⟨[], false⟩
     false [] (Or.inl rfl)⟩

end AlgoTradeBuyer
